import Mathlib

/-!
Verification of the `nextart` application (src/nextart/src/main.rs) against its
natural-language specification.

The development shallowly embeds the two stateful components the claims are
about:

* the collection indexer (`State::index_roms` / `State::index_collection_folder`),
  modelled over an explicit description of the filesystem responses the Rust
  code observes (directory listings, file types, file stems, boxart existence
  and metadata results, `.media` creation results);
* the iced view state machine (`NextArtView::update`), modelled as a total
  function from view and message to an optional pair of new view and scheduled
  task, where `none` stands for a Rust panic (out-of-bounds `Vec` indexing).

Strings are used for paths; `u64` byte lengths are modelled as `Nat` (file
lengths never reach `2^64` in the model, and the Rust code performs no
arithmetic on them that could overflow).
-/

namespace NextArt

/-- Paths (`std::path::PathBuf`) are modelled as strings; `push` on a path is
string concatenation with a `/` separator. -/
abbrev PathBuf := String

/-- `Rom` struct from main.rs: one indexed media item. -/
structure Rom where
  name : String
  boxart_path : PathBuf
  boxart_size : Nat
  deriving Repr, DecidableEq

/-- `Collection` struct from main.rs: a named group of rom indices. -/
structure Collection where
  name : String
  rom_indices : List Nat
  deriving Repr, DecidableEq

/-- `Index` struct from main.rs: aggregate result of one scan. -/
structure Index where
  roms : List Rom
  collections : List Collection
  deriving Repr, DecidableEq

/-- `Index::default()`: both sequences empty. -/
def Index.default : Index := ⟨[], []⟩

/-- `State` struct from main.rs: the Collection State carried across views. -/
structure State where
  roms_folder : PathBuf
  index : Index
  errors : List String
  deriving Repr, DecidableEq

/-! ### Filesystem model for the indexer

The Rust indexer only observes the filesystem via a fixed set of calls.  Each
observation is represented as data, so a scan is a pure function of the state
and this description. -/

/-- Equality of `Except` results is decidable when it is on both components;
needed so concrete scans can be checked by `decide`. -/
instance exceptDecEq (ε α : Type) [DecidableEq ε] [DecidableEq α] :
    DecidableEq (Except ε α)
  | .error a, .error b =>
    decidable_of_iff (a = b) ⟨fun h => h ▸ rfl, fun h => by cases h; rfl⟩
  | .error _, .ok _ => isFalse (by intro h; cases h)
  | .ok _, .error _ => isFalse (by intro h; cases h)
  | .ok a, .ok b =>
    decidable_of_iff (a = b) ⟨fun h => h ▸ rfl, fun h => by cases h; rfl⟩

/-- What `State::index_collection_folder` observes about one regular-file entry
of a collection directory. -/
structure FileEntry where
  /-- `entry.path().file_stem()`: `none` models a path with no extractable stem. -/
  stem : Option String
  /-- the `{:#?}` debug rendering of the entry, used in the stem error message. -/
  debugRepr : String
  /-- result of `std::fs::exists(&boxart_path)`. -/
  boxartExists : Except String Bool
  /-- result of `std::fs::metadata(&boxart_path)` (its `len()`); `none` models a
  failed metadata read. -/
  boxartLen : Option Nat
  deriving Repr, DecidableEq

/-- One element of the `read_dir` iterator inside a collection directory. -/
inductive CollEntry where
  /-- the entry result itself is `Err` (`if let Ok(entry) = entry` fails). -/
  | errEntry : CollEntry
  /-- `entry.file_type()` returned `Err` with the given rendered error. -/
  | fileTypeFail (e : String) : CollEntry
  /-- a readable entry that is not a regular file (skipped by `continue`). -/
  | notFile : CollEntry
  /-- a readable regular-file entry. -/
  | okFile (f : FileEntry) : CollEntry
  deriving Repr, DecidableEq

/-- What `State::index_collection_folder` observes about one collection
subdirectory of the root. -/
structure CollectionDir where
  /-- `collection_direntry.file_name()` (lossy), also the last path component. -/
  name : String
  /-- result of `std::fs::read_dir(&collection_path)` (raw error rendering). -/
  readDir : Except String (List CollEntry)
  /-- whether `<collection>/.media` exists before the scan touches it. -/
  mediaExists : Bool
  /-- result of `std::fs::create_dir(&media_folder)` if it is attempted. -/
  mediaCreate : Except String Unit
  deriving Repr, DecidableEq

/-- One element of the `read_dir` iterator over the root directory. -/
inductive RootEntry where
  /-- the entry result itself is `Err` with the given rendered error. -/
  | errEntry (e : String) : RootEntry
  /-- `entry.file_type()` returned `Err` for the entry with this name. -/
  | fileTypeFail (name : String) (e : String) : RootEntry
  /-- a readable entry that is not a directory (ignored). -/
  | notDir (name : String) : RootEntry
  /-- a readable directory entry: one collection. -/
  | dir (d : CollectionDir) : RootEntry
  deriving Repr, DecidableEq

/-- The root directory as observed by `State::index_roms`:
result of `std::fs::read_dir(&self.roms_folder)` (raw error rendering). -/
structure RootDir where
  readDir : Except String (List RootEntry)
  deriving Repr, DecidableEq

/-! ### The indexer (`State::index_roms`, `State::index_collection_folder`) -/

/-- `boxart_path` computed in `index_collection_folder`:
`<media_folder>/<stem>.png`. -/
def boxartPathOf (mediaFolder stem : String) : PathBuf :=
  mediaFolder ++ "/" ++ stem ++ ".png"

/-- The `boxart_size` field of the `Rom` built for a file entry, following the
`match std::fs::exists(&boxart_path)` block: it stays `0` unless the existence
check succeeds with `true` and the metadata read succeeds. -/
def boxartSizeOf (f : FileEntry) : Nat :=
  match f.boxartExists with
  | .ok true =>
    match f.boxartLen with
    | some len => len
    | none => 0
  | .ok false => 0
  | .error _ => 0

/-- The error strings pushed to `self.errors` by the
`match std::fs::exists(&boxart_path)` block for one file entry. -/
def boxartErrorsOf (bpath : PathBuf) (f : FileEntry) : List String :=
  match f.boxartExists with
  | .ok true =>
    match f.boxartLen with
    | some _ => []
    | none => ["Failed to get metadata for '" ++ bpath ++ "'"]
  | .ok false => []
  | .error e => ["Failed to get metadata for '" ++ bpath ++ ": " ++ e ++ "'"]

/-- The `Rom` built for a file entry with extracted stem `stem`. -/
def romOfFile (mediaFolder stem : String) (f : FileEntry) : Rom :=
  { name := stem
    boxart_path := boxartPathOf mediaFolder stem
    boxart_size := boxartSizeOf f }

/-- The `for entry in read_dir` loop of `State::index_collection_folder`.
`mediaNow` tracks whether `<collection>/.media` currently exists (it is checked
at the top of every iteration, before the entry itself is examined, and a
successful `create_dir` makes it exist from then on).  Returns the mutated
state together with either the completed `Collection` or the error that made
the function return early through `?`; in the error case the mutations already
applied to the state persist and the collection local is dropped. -/
def indexCollLoop (mediaFolder : String) (mediaCreate : Except String Unit) :
    List CollEntry → State → Collection → Bool → State × Except String Collection
  | [], s, c, _ => (s, .ok c)
  | entry :: rest, s, c, mediaNow =>
    match (if mediaNow then Except.ok () else mediaCreate) with
    | .error e =>
      (s, .error ("Failed to create media folder '" ++ mediaFolder ++ "': " ++ e))
    | .ok () =>
      match entry with
      | .errEntry => indexCollLoop mediaFolder mediaCreate rest s c true
      | .fileTypeFail e => (s, .error e)
      | .notFile => indexCollLoop mediaFolder mediaCreate rest s c true
      | .okFile f =>
        match f.stem with
        | none => (s, .error ("Failed to extract file stem: " ++ f.debugRepr))
        | some stem =>
          let bpath := boxartPathOf mediaFolder stem
          let rom := romOfFile mediaFolder stem f
          let s2 : State :=
            { s with
              errors := s.errors ++ boxartErrorsOf bpath f
              index := { s.index with roms := s.index.roms ++ [rom] } }
          let c2 : Collection :=
            { c with rom_indices := c.rom_indices ++ [s.index.roms.length] }
          indexCollLoop mediaFolder mediaCreate rest s2 c2 true

/-- `State::index_collection_folder`.  On success the built `Collection` is
pushed onto `self.index.collections`; on early return through `?` the state
mutations performed so far persist but the collection is not pushed. -/
def index_collection_folder (s : State) (d : CollectionDir) :
    State × Except String Unit :=
  match d.readDir with
  | .error e =>
    (s, .error ("Failed to read collection directory '" ++ (s.roms_folder ++ "/" ++ d.name) ++ "': " ++ e))
  | .ok entries =>
    match indexCollLoop (s.roms_folder ++ "/" ++ d.name ++ "/.media") d.mediaCreate entries s
        ⟨d.name, []⟩ d.mediaExists with
    | (s2, .error e) => (s2, .error e)
    | (s2, .ok c) =>
      ({ s2 with index := { s2.index with collections := s2.index.collections ++ [c] } },
       .ok ())

/-- The `for entry_result in read_dir` loop of `State::index_roms`: every root
entry is processed; a failing collection contributes one formatted error and
the loop continues. -/
def indexRootLoop : List RootEntry → State → State
  | [], s => s
  | .errEntry e :: rest, s =>
    indexRootLoop rest
      { s with errors := s.errors ++ ["Failed to read directory entry: " ++ e] }
  | .fileTypeFail name e :: rest, s =>
    indexRootLoop rest
      { s with errors := s.errors ++
          ["Failed to determine file type for '" ++ s.roms_folder ++ "/" ++ name ++ "': " ++ e] }
  | .notDir _ :: rest, s => indexRootLoop rest s
  | .dir d :: rest, s =>
    match index_collection_folder s d with
    | (s2, .ok ()) => indexRootLoop rest s2
    | (s2, .error e) =>
      indexRootLoop rest
        { s2 with errors := s2.errors ++
            ["Failed to index collection '" ++ s.roms_folder ++ "/" ++ d.name ++ "': " ++ e] }

/-- `State::index_roms`: fails only when the root itself cannot be listed;
otherwise processes every root entry and finally drops the collections whose
`rom_indices` is empty. -/
def index_roms (s : State) (root : RootDir) : Except String State :=
  match root.readDir with
  | .error e =>
    .error ("Failed to read directory '" ++ s.roms_folder ++ "': " ++ e)
  | .ok entries =>
    let s2 := indexRootLoop entries s
    .ok { s2 with index :=
            { s2.index with collections :=
                s2.index.collections.filter (fun c => !c.rom_indices.isEmpty) } }

/-! ### The view state machine (`NextArtView`, `Message`, `NextArtView::update`) -/

/-- `iced::widget::image::Handle`: only ever built through
`Handle::from_rgba(width, height, bytes)` in this program. -/
inductive ImageHandle where
  | fromRgba (width height : Nat) (bytes : List Nat) : ImageHandle
  deriving Repr, DecidableEq

/-- The `Message` enum from main.rs. -/
inductive Message where
  | NoOp : Message
  | OpenRomDirectoryPicker : Message
  | OpenRomList (title : String) (rom_indices : List Nat) : Message
  | SelectRom (index : Nat) : Message
  | CompletedIndexing (state : State) : Message
  | RomDirectoryChosen (path : PathBuf) : Message
  | OpenCollectionList : Message
  | OpenErrorList : Message
  | SetupDone (path : PathBuf) : Message
  | SetClipboardText (value : String) : Message
  | SetClipboardImage (path : PathBuf) : Message
  | ReplacementImageFromClip (path : PathBuf) (rom_index : Nat) : Message
  | ViewError (e : String) : Message
  | RecordError (e : String) : Message
  | SetRomInfoImage (width height : Nat) (bytes : List Nat) : Message
  | WroteNewImage (rom_index : Nat) (size : Nat) : Message
  | ChooseReplacementImage (path : PathBuf) (rom_index : Nat) : Message
  | ResetState : Message
  deriving Repr, DecidableEq

/-- The `NextArtView` enum from main.rs: the closed set of views. -/
inductive NextArtView where
  | Setup (chosen_path : Option PathBuf) (error : Option String) : NextArtView
  | Loading (state : State) (message : String) : NextArtView
  | CollectionList (state : State) : NextArtView
  | RomList (state : State) (title : String) (selected_index : Option Nat)
      (selected_image : Option ImageHandle) (rom_indices : List Nat) : NextArtView
  | FatalError (error_description : String) : NextArtView
  | ErrorList (state : State) : NextArtView
  deriving Repr, DecidableEq

/-- The `iced::Task<Message>` value returned by `update`, abstracted to which
asynchronous operation is scheduled (the operations themselves are external
collaborators; their outcome-to-message continuations that matter to the
claims are modelled separately below). -/
inductive MTask where
  /-- `Task::none()`. -/
  | none : MTask
  /-- `Task::perform(async { String::from(e) }, Message::RecordError)`:
  the recorded-error event emitted by a refused navigation. -/
  | recordErrorMsg (e : String) : MTask
  /-- the clipboard-to-boxart task of `ReplacementImageFromClip`. -/
  | replacementFromClip (path : PathBuf) (rom_index : Nat) : MTask
  /-- the boxart-to-clipboard task of `SetClipboardImage`. -/
  | setClipboardImage (path : PathBuf) : MTask
  /-- `Self::load_image_task(path)`. -/
  | loadImage (path : PathBuf) : MTask
  /-- `iced::clipboard::write(value)`. -/
  | clipboardWrite (value : String) : MTask
  /-- the file-picker-and-copy task of `ChooseReplacementImage`. -/
  | chooseReplacement (path : PathBuf) (rom_index : Nat) : MTask
  /-- the folder-picker task of `OpenRomDirectoryPicker`. -/
  | pickFolder : MTask
  /-- the config-persist-then-scan task of `SetupDone`, operating on a clone
  of the freshly constructed state. -/
  | persistAndScan (state : State) : MTask
  deriving Repr, DecidableEq

/-- `NextArtView::update`.  Returns `none` exactly where the Rust code panics:
the unchecked `Vec` indexing `state.index.roms[i]` in the `SelectRom` and
`WroteNewImage` arms.  Otherwise returns the new view and the scheduled task. -/
def update (v : NextArtView) (msg : Message) : Option (NextArtView × MTask) :=
  match msg with
  | .NoOp => some (v, .none)
  | .SetRomInfoImage w h bytes =>
    match v with
    | .RomList s t si _ ris =>
      some (.RomList s t si (some (.fromRgba w h bytes)) ris, .none)
    | _ => some (v, .none)
  | .OpenCollectionList =>
    match v with
    | .RomList s _ _ _ _ => some (.CollectionList s, .none)
    | .ErrorList s => some (.CollectionList s, .none)
    | other =>
      some (other, .recordErrorMsg "Cannot navigate: No state available")
  | .OpenErrorList =>
    match v with
    | .RomList s _ _ _ _ => some (.ErrorList s, .none)
    | .CollectionList s => some (.ErrorList s, .none)
    | other =>
      some (other,
        .recordErrorMsg
          "Cannot navigate to collections: Current view doesn't contain a valid state")
  | .ReplacementImageFromClip path ri => some (v, .replacementFromClip path ri)
  | .SetClipboardImage p => some (v, .setClipboardImage p)
  | .WroteNewImage ri size =>
    match v with
    | .RomList s t si _ ris =>
      if h : ri < s.index.roms.length then
        let newRom := { s.index.roms.get ⟨ri, h⟩ with boxart_size := size }
        let s2 : State :=
          { s with index := { s.index with roms := s.index.roms.set ri newRom } }
        some (.RomList s2 t si Option.none ris, .loadImage newRom.boxart_path)
      else
        none
    | _ => some (v, .none)
  | .ResetState => some (.Setup Option.none Option.none, .none)
  | .OpenRomList title ris =>
    match v with
    | .CollectionList s =>
      some (.RomList s title Option.none Option.none ris, .none)
    | .ErrorList s =>
      some (.RomList s title Option.none Option.none ris, .none)
    | other =>
      some (other, .recordErrorMsg "Cannot navigate: No state available")
  | .RecordError e =>
    match v with
    | .RomList s t si img ris =>
      some (.RomList { s with errors := s.errors ++ [e] } t si img ris, .none)
    | .Loading s m =>
      some (.Loading { s with errors := s.errors ++ [e] } m, .none)
    | .CollectionList s =>
      some (.CollectionList { s with errors := s.errors ++ [e] }, .none)
    | _ => some (v, .none)
  | .ViewError e => some (.FatalError e, .none)
  | .SetClipboardText value => some (v, .clipboardWrite value)
  | .ChooseReplacementImage path ri => some (v, .chooseReplacement path ri)
  | .OpenRomDirectoryPicker => some (v, .pickFolder)
  | .RomDirectoryChosen p =>
    match v with
    | .Setup _ err => some (.Setup (some p) err, .none)
    | _ => some (v, .none)
  | .SelectRom idx =>
    match v with
    | .RomList s t _ img ris =>
      if h : idx < s.index.roms.length then
        let rom := s.index.roms.get ⟨idx, h⟩
        if rom.boxart_size ≠ 0 then
          some (.RomList s t (some idx) img ris, .loadImage rom.boxart_path)
        else
          some (.RomList s t (some idx) img ris, .none)
      else
        none
    | _ => some (v, .none)
  | .SetupDone path =>
    let fresh : State := { roms_folder := path, index := Index.default, errors := [] }
    some (.Loading fresh "Your collection is being indexed, please be patient.",
      .persistAndScan fresh)
  | .CompletedIndexing s => some (.CollectionList s, .none)

/-- Applying `update` to a sequence of messages, keeping only the views
(`none` as soon as one step panics). -/
def updateSeq (v : NextArtView) : List Message → Option NextArtView
  | [] => some v
  | m :: rest =>
    match update v m with
    | some (v2, _) => updateSeq v2 rest
    | none => none

/-! ### Outcome continuations of the dialog tasks

These embed the async bodies and `Task::perform` continuations whose mapping
from dialog outcome to message the claims constrain. -/

/-- Continuation of the `OpenRomDirectoryPicker` task: the folder picker
returns an optional path; `None` (user cancelled) maps to `NoOp`. -/
def pickFolderContinuation : Option PathBuf → Message
  | some x => .RomDirectoryChosen x
  | Option.none => .NoOp

/-- Async body of the `ChooseReplacementImage` task: `pickResult` is what
`dialog.pick_file()` returned, `copy` is `std::fs::copy` (byte count or raw
error rendering). -/
def chooseReplacementBody (path : PathBuf) (pickResult : Option PathBuf)
    (copy : PathBuf → PathBuf → Except String Nat) : Except String Nat :=
  match pickResult with
  | some picked =>
    match copy picked path with
    | .ok written => .ok written
    | .error e =>
      .error ("Failed to copy file from '" ++ picked ++ "' to '" ++ path ++ "': " ++ e)
  | Option.none => .error "No file selected"

/-- Continuation of the `ChooseReplacementImage` task. -/
def chooseReplacementContinuation (romIndex : Nat) : Except String Nat → Message
  | .ok x => .WroteNewImage romIndex x
  | .error e => .RecordError e

/-- The message the Done button of the Setup view emits (`NextArtView::view`,
Setup arm): `SetupDone` with the chosen path, or `ViewError` when no path has
been chosen. -/
def setupDoneMessage : Option PathBuf → Message
  | some path => .SetupDone path
  | Option.none => .ViewError "No path selected."

/-- Whether a view is the `RomList` variant. -/
def isRomList : NextArtView → Bool
  | .RomList _ _ _ _ _ => true
  | _ => false

/-! ### Invariants of the indexer -/

/-- Every `rom_indices` entry of every collection is a valid index into
`roms`. -/
def validIndex (idx : Index) : Prop :=
  ∀ c ∈ idx.collections, ∀ i ∈ c.rom_indices, i < idx.roms.length

/-- The collection loop only appends: `roms_folder` and `collections` are
untouched, `roms` and `errors` only grow at the end. -/
theorem indexCollLoop_state_spec (mf : String) (mc : Except String Unit) :
    ∀ (entries : List CollEntry) (s : State) (c : Collection) (b : Bool),
      (indexCollLoop mf mc entries s c b).1.roms_folder = s.roms_folder ∧
      (indexCollLoop mf mc entries s c b).1.index.collections = s.index.collections ∧
      (∃ new, (indexCollLoop mf mc entries s c b).1.index.roms = s.index.roms ++ new) ∧
      (∃ new, (indexCollLoop mf mc entries s c b).1.errors = s.errors ++ new) := by
  intro entries
  induction entries with
  | nil =>
    intro s c b
    exact ⟨rfl, rfl, ⟨[], by simp [indexCollLoop]⟩, ⟨[], by simp [indexCollLoop]⟩⟩
  | cons entry rest ih =>
    intro s c b
    by_cases hb : b = true
    · subst hb
      cases entry with
      | errEntry => simpa [indexCollLoop] using ih s c true
      | fileTypeFail e =>
        exact ⟨rfl, rfl, ⟨[], by simp [indexCollLoop]⟩, ⟨[], by simp [indexCollLoop]⟩⟩
      | notFile => simpa [indexCollLoop] using ih s c true
      | okFile f =>
        cases hstem : f.stem with
        | none =>
          refine ⟨?_, ?_, ⟨[], ?_⟩, ⟨[], ?_⟩⟩ <;> simp [indexCollLoop, hstem]
        | some stem =>
          have h2 := ih
            { s with
              errors := s.errors ++ boxartErrorsOf (boxartPathOf mf stem) f
              index := { s.index with roms := s.index.roms ++ [romOfFile mf stem f] } }
            { c with rom_indices := c.rom_indices ++ [s.index.roms.length] } true
          obtain ⟨ha, hb2, ⟨n1, hn1⟩, ⟨n2, hn2⟩⟩ := h2
          refine ⟨?_, ?_, ⟨[romOfFile mf stem f] ++ n1, ?_⟩, ⟨boxartErrorsOf (boxartPathOf mf stem) f ++ n2, ?_⟩⟩ <;>
            simp [indexCollLoop, hstem, ha, hb2, hn1, hn2]
    · have hb2 : b = false := by cases b <;> simp_all
      subst hb2
      cases hmc : mc with
      | error e =>
        subst hmc
        exact ⟨rfl, rfl, ⟨[], by simp [indexCollLoop]⟩, ⟨[], by simp [indexCollLoop]⟩⟩
      | ok u =>
        cases u
        subst hmc
        cases entry with
        | errEntry => simpa [indexCollLoop] using ih s c true
        | fileTypeFail e =>
          exact ⟨rfl, rfl, ⟨[], by simp [indexCollLoop]⟩, ⟨[], by simp [indexCollLoop]⟩⟩
        | notFile => simpa [indexCollLoop] using ih s c true
        | okFile f =>
          cases hstem : f.stem with
          | none =>
            refine ⟨?_, ?_, ⟨[], ?_⟩, ⟨[], ?_⟩⟩ <;> simp [indexCollLoop, hstem]
          | some stem =>
            have h2 := ih
              { s with
                errors := s.errors ++ boxartErrorsOf (boxartPathOf mf stem) f
                index := { s.index with roms := s.index.roms ++ [romOfFile mf stem f] } }
              { c with rom_indices := c.rom_indices ++ [s.index.roms.length] } true
            obtain ⟨ha, hb2, ⟨n1, hn1⟩, ⟨n2, hn2⟩⟩ := h2
            refine ⟨?_, ?_, ⟨[romOfFile mf stem f] ++ n1, ?_⟩, ⟨boxartErrorsOf (boxartPathOf mf stem) f ++ n2, ?_⟩⟩ <;>
              simp [indexCollLoop, hstem, ha, hb2, hn1, hn2]

/-- When the collection loop completes normally, every index of the returned
collection is valid for the resulting `roms` sequence, provided the indices
accumulated so far were valid for the incoming one. -/
theorem indexCollLoop_ok_indices (mf : String) (mc : Except String Unit) :
    ∀ (entries : List CollEntry) (s : State) (c : Collection) (b : Bool) (c2 : Collection),
      (indexCollLoop mf mc entries s c b).2 = .ok c2 →
      (∀ i ∈ c.rom_indices, i < s.index.roms.length) →
      ∀ i ∈ c2.rom_indices, i < (indexCollLoop mf mc entries s c b).1.index.roms.length := by
  intro entries
  induction entries with
  | nil =>
    intro s c b c2 hok hc i hi
    simp only [indexCollLoop] at hok ⊢
    cases hok
    exact hc i hi
  | cons entry rest ih =>
    intro s c b c2 hok hc i hi
    by_cases hb : b = true
    · subst hb
      cases entry with
      | errEntry => exact ih s c true c2 (by simpa [indexCollLoop] using hok) hc i hi
      | fileTypeFail e => simp [indexCollLoop] at hok
      | notFile => exact ih s c true c2 (by simpa [indexCollLoop] using hok) hc i hi
      | okFile f =>
        cases hstem : f.stem with
        | none => simp [indexCollLoop, hstem] at hok
        | some stem =>
          have hc2 :
              ∀ j ∈ ({ c with rom_indices := c.rom_indices ++ [s.index.roms.length] } :
                  Collection).rom_indices,
                j < ({ s with
                  errors := s.errors ++ boxartErrorsOf (boxartPathOf mf stem) f
                  index := { s.index with roms := s.index.roms ++ [romOfFile mf stem f] } } :
                  State).index.roms.length := by
            intro j hj
            simp only [List.mem_append, List.mem_singleton] at hj
            simp only [List.length_append, List.length_cons, List.length_nil]
            rcases hj with hj | hj
            · exact Nat.lt_succ_of_lt (hc j hj)
            · subst hj; exact Nat.lt_succ_self _
          have := ih
            { s with
              errors := s.errors ++ boxartErrorsOf (boxartPathOf mf stem) f
              index := { s.index with roms := s.index.roms ++ [romOfFile mf stem f] } }
            { c with rom_indices := c.rom_indices ++ [s.index.roms.length] } true c2
            (by simpa [indexCollLoop, hstem] using hok) hc2 i hi
          simpa [indexCollLoop, hstem] using this
    · have hb0 : b = false := by cases b <;> simp_all
      subst hb0
      cases hmc : mc with
      | error e => subst hmc; simp [indexCollLoop] at hok
      | ok u =>
        cases u
        subst hmc
        cases entry with
        | errEntry => exact ih s c true c2 (by simpa [indexCollLoop] using hok) hc i hi
        | fileTypeFail e => simp [indexCollLoop] at hok
        | notFile => exact ih s c true c2 (by simpa [indexCollLoop] using hok) hc i hi
        | okFile f =>
          cases hstem : f.stem with
          | none => simp [indexCollLoop, hstem] at hok
          | some stem =>
            have hc2 :
                ∀ j ∈ ({ c with rom_indices := c.rom_indices ++ [s.index.roms.length] } :
                    Collection).rom_indices,
                  j < ({ s with
                    errors := s.errors ++ boxartErrorsOf (boxartPathOf mf stem) f
                    index := { s.index with roms := s.index.roms ++ [romOfFile mf stem f] } } :
                    State).index.roms.length := by
              intro j hj
              simp only [List.mem_append, List.mem_singleton] at hj
              simp only [List.length_append, List.length_cons, List.length_nil]
              rcases hj with hj | hj
              · exact Nat.lt_succ_of_lt (hc j hj)
              · subst hj; exact Nat.lt_succ_self _
            have := ih
              { s with
                errors := s.errors ++ boxartErrorsOf (boxartPathOf mf stem) f
                index := { s.index with roms := s.index.roms ++ [romOfFile mf stem f] } }
              { c with rom_indices := c.rom_indices ++ [s.index.roms.length] } true c2
              (by simpa [indexCollLoop, hstem] using hok) hc2 i hi
            simpa [indexCollLoop, hstem] using this

/-- Provenance of the roms produced by the collection loop: every rom of the
resulting state was already there, or is `romOfFile` of some `okFile` entry of
the processed list whose stem was extractable. -/
theorem indexCollLoop_roms_from (mf : String) (mc : Except String Unit) :
    ∀ (entries : List CollEntry) (s : State) (c : Collection) (b : Bool),
      ∀ rom ∈ (indexCollLoop mf mc entries s c b).1.index.roms,
        rom ∈ s.index.roms ∨
        ∃ f stem, CollEntry.okFile f ∈ entries ∧ f.stem = some stem ∧
          rom = romOfFile mf stem f := by
  intro entries
  induction entries with
  | nil =>
    intro s c b rom hrom
    exact Or.inl (by simpa [indexCollLoop] using hrom)
  | cons entry rest ih =>
    intro s c b rom hrom
    by_cases hb : b = true
    · subst hb
      cases entry with
      | errEntry =>
        rcases ih s c true rom (by simpa [indexCollLoop] using hrom) with h | ⟨f, stem, hf, hs, he⟩
        · exact Or.inl h
        · exact Or.inr ⟨f, stem, List.mem_cons_of_mem _ hf, hs, he⟩
      | fileTypeFail e =>
        exact Or.inl (by simpa [indexCollLoop] using hrom)
      | notFile =>
        rcases ih s c true rom (by simpa [indexCollLoop] using hrom) with h | ⟨f, stem, hf, hs, he⟩
        · exact Or.inl h
        · exact Or.inr ⟨f, stem, List.mem_cons_of_mem _ hf, hs, he⟩
      | okFile f =>
        cases hstem : f.stem with
        | none =>
          exact Or.inl (by simpa [indexCollLoop, hstem] using hrom)
        | some stem =>
          have hrom2 :
              rom ∈ (indexCollLoop mf mc rest
                { s with
                  errors := s.errors ++ boxartErrorsOf (boxartPathOf mf stem) f
                  index := { s.index with roms := s.index.roms ++ [romOfFile mf stem f] } }
                { c with rom_indices := c.rom_indices ++ [s.index.roms.length] }
                true).1.index.roms := by
            simpa [indexCollLoop, hstem] using hrom
          rcases ih _ _ true rom hrom2 with h | ⟨g, stem2, hg, hs2, he2⟩
          · simp only [List.mem_append, List.mem_singleton] at h
            rcases h with h | h
            · exact Or.inl h
            · exact Or.inr ⟨f, stem, List.mem_cons_self _ _, hstem, h⟩
          · exact Or.inr ⟨g, stem2, List.mem_cons_of_mem _ hg, hs2, he2⟩
    · have hb0 : b = false := by cases b <;> simp_all
      subst hb0
      cases hmc : mc with
      | error e =>
        subst hmc
        exact Or.inl (by simpa [indexCollLoop] using hrom)
      | ok u =>
        cases u
        subst hmc
        cases entry with
        | errEntry =>
          rcases ih s c true rom (by simpa [indexCollLoop] using hrom) with h | ⟨f, stem, hf, hs, he⟩
          · exact Or.inl h
          · exact Or.inr ⟨f, stem, List.mem_cons_of_mem _ hf, hs, he⟩
        | fileTypeFail e =>
          exact Or.inl (by simpa [indexCollLoop] using hrom)
        | notFile =>
          rcases ih s c true rom (by simpa [indexCollLoop] using hrom) with h | ⟨f, stem, hf, hs, he⟩
          · exact Or.inl h
          · exact Or.inr ⟨f, stem, List.mem_cons_of_mem _ hf, hs, he⟩
        | okFile f =>
          cases hstem : f.stem with
          | none =>
            exact Or.inl (by simpa [indexCollLoop, hstem] using hrom)
          | some stem =>
            have hrom2 :
                rom ∈ (indexCollLoop mf (Except.ok ()) rest
                  { s with
                    errors := s.errors ++ boxartErrorsOf (boxartPathOf mf stem) f
                    index := { s.index with roms := s.index.roms ++ [romOfFile mf stem f] } }
                  { c with rom_indices := c.rom_indices ++ [s.index.roms.length] }
                  true).1.index.roms := by
              simpa [indexCollLoop, hstem] using hrom
            rcases ih _ _ true rom hrom2 with h | ⟨g, stem2, hg, hs2, he2⟩
            · simp only [List.mem_append, List.mem_singleton] at h
              rcases h with h | h
              · exact Or.inl h
              · exact Or.inr ⟨f, stem, List.mem_cons_self _ _, hstem, h⟩
            · exact Or.inr ⟨g, stem2, List.mem_cons_of_mem _ hg, hs2, he2⟩

/-- `index_collection_folder` keeps `roms_folder`, only appends to `errors`,
only appends to `roms`, and only appends (at most one collection) to
`collections`. -/
theorem index_collection_folder_state_spec (s : State) (d : CollectionDir) :
    (index_collection_folder s d).1.roms_folder = s.roms_folder ∧
    (∃ new, (index_collection_folder s d).1.errors = s.errors ++ new) ∧
    (∃ new, (index_collection_folder s d).1.index.roms = s.index.roms ++ new) := by
  rcases hrd : d.readDir with e | entries
  · refine ⟨?_, ⟨[], ?_⟩, ⟨[], ?_⟩⟩ <;> simp [index_collection_folder, hrd]
  · obtain ⟨hrf, hcoll, ⟨n1, hroms⟩, ⟨n2, herr⟩⟩ :=
      indexCollLoop_state_spec (s.roms_folder ++ "/" ++ d.name ++ "/.media") d.mediaCreate
        entries s ⟨d.name, []⟩ d.mediaExists
    rcases hL : indexCollLoop (s.roms_folder ++ "/" ++ d.name ++ "/.media") d.mediaCreate
        entries s ⟨d.name, []⟩ d.mediaExists with ⟨s2, r⟩
    rw [hL] at hrf hcoll hroms herr
    cases r with
    | error e =>
      simp only [index_collection_folder, hrd, hL]
      exact ⟨hrf, ⟨n2, herr⟩, ⟨n1, hroms⟩⟩
    | ok c =>
      simp only [index_collection_folder, hrd, hL]
      exact ⟨hrf, ⟨n2, herr⟩, ⟨n1, hroms⟩⟩

/-- `index_collection_folder` preserves the index-validity invariant. -/
theorem index_collection_folder_valid (s : State) (d : CollectionDir)
    (h : validIndex s.index) : validIndex (index_collection_folder s d).1.index := by
  rcases hrd : d.readDir with e | entries
  · simpa only [index_collection_folder, hrd] using h
  · obtain ⟨hrf, hcoll, ⟨n1, hroms⟩, hE⟩ :=
      indexCollLoop_state_spec (s.roms_folder ++ "/" ++ d.name ++ "/.media") d.mediaCreate
        entries s ⟨d.name, []⟩ d.mediaExists
    have hidx := indexCollLoop_ok_indices (s.roms_folder ++ "/" ++ d.name ++ "/.media")
      d.mediaCreate entries s ⟨d.name, []⟩ d.mediaExists
    rcases hL : indexCollLoop (s.roms_folder ++ "/" ++ d.name ++ "/.media") d.mediaCreate
        entries s ⟨d.name, []⟩ d.mediaExists with ⟨s2, r⟩
    rw [hL] at hcoll hroms hidx
    have hlen : s.index.roms.length ≤ s2.index.roms.length := by
      rw [hroms]; simp
    cases r with
    | error e =>
      simp only [index_collection_folder, hrd, hL]
      intro c hc i hi
      have hcoll2 : s2.index.collections = s.index.collections := hcoll
      rw [hcoll2] at hc
      exact Nat.lt_of_lt_of_le (h c hc i hi) hlen
    | ok c =>
      simp only [index_collection_folder, hrd, hL]
      intro c0 hc0 i hi
      have hcoll2 : s2.index.collections = s.index.collections := hcoll
      simp only [hcoll2, List.mem_append, List.mem_singleton] at hc0
      rcases hc0 with hc0 | hc0
      · exact Nat.lt_of_lt_of_le (h c0 hc0 i hi) hlen
      · subst hc0
        exact hidx c0 rfl (by intro j hj; simp at hj) i hi

/-- Provenance of the roms produced by `index_collection_folder`. -/
theorem index_collection_folder_roms_from (s : State) (d : CollectionDir) :
    ∀ rom ∈ (index_collection_folder s d).1.index.roms,
      rom ∈ s.index.roms ∨
      ∃ ents f stem, d.readDir = .ok ents ∧ CollEntry.okFile f ∈ ents ∧
        f.stem = some stem ∧
        rom = romOfFile (s.roms_folder ++ "/" ++ d.name ++ "/.media") stem f := by
  rcases hrd : d.readDir with e | entries
  · simp only [index_collection_folder, hrd]
    exact fun rom h => Or.inl h
  · intro rom hrom
    have hfrom := indexCollLoop_roms_from (s.roms_folder ++ "/" ++ d.name ++ "/.media")
      d.mediaCreate entries s ⟨d.name, []⟩ d.mediaExists
    rcases hL : indexCollLoop (s.roms_folder ++ "/" ++ d.name ++ "/.media") d.mediaCreate
        entries s ⟨d.name, []⟩ d.mediaExists with ⟨s2, r⟩
    rw [hL] at hfrom
    simp only [index_collection_folder, hrd, hL] at hrom
    have hmem : rom ∈ s2.index.roms := by
      cases r with
      | error e => exact hrom
      | ok c => simpa using hrom
    rcases hfrom rom hmem with h | ⟨f, stem, hf, hs, he⟩
    · exact Or.inl h
    · exact Or.inr ⟨entries, f, stem, rfl, hf, hs, he⟩

/-- The root loop keeps `roms_folder` and only appends to `errors`. -/
theorem indexRootLoop_state_spec :
    ∀ (entries : List RootEntry) (s : State),
      (indexRootLoop entries s).roms_folder = s.roms_folder ∧
      (∃ new, (indexRootLoop entries s).errors = s.errors ++ new) := by
  intro entries
  induction entries with
  | nil => exact fun s => ⟨rfl, ⟨[], by simp [indexRootLoop]⟩⟩
  | cons entry rest ih =>
    intro s
    cases entry with
    | errEntry e =>
      obtain ⟨h1, ⟨n, hn⟩⟩ := ih { s with errors := s.errors ++ ["Failed to read directory entry: " ++ e] }
      exact ⟨by simpa [indexRootLoop] using h1,
        ⟨["Failed to read directory entry: " ++ e] ++ n, by simpa [indexRootLoop] using hn⟩⟩
    | fileTypeFail name e =>
      obtain ⟨h1, ⟨n, hn⟩⟩ := ih { s with errors := s.errors ++
        ["Failed to determine file type for '" ++ s.roms_folder ++ "/" ++ name ++ "': " ++ e] }
      exact ⟨by simpa [indexRootLoop] using h1,
        ⟨["Failed to determine file type for '" ++ s.roms_folder ++ "/" ++ name ++ "': " ++ e] ++ n,
          by simpa [indexRootLoop] using hn⟩⟩
    | notDir name =>
      obtain ⟨h1, ⟨n, hn⟩⟩ := ih s
      exact ⟨by simpa [indexRootLoop] using h1, ⟨n, by simpa [indexRootLoop] using hn⟩⟩
    | dir d =>
      obtain ⟨hrf, ⟨nE, hE⟩, hR⟩ := index_collection_folder_state_spec s d
      rcases hI : index_collection_folder s d with ⟨s2, r⟩
      rw [hI] at hrf hE
      have hrf2 : s2.roms_folder = s.roms_folder := hrf
      have hE2 : s2.errors = s.errors ++ nE := hE
      cases r with
      | ok u =>
        cases u
        obtain ⟨h1, ⟨n, hn⟩⟩ := ih s2
        refine ⟨?_, ⟨nE ++ n, ?_⟩⟩
        · simpa [indexRootLoop, hI, hrf2] using h1
        · simp only [indexRootLoop, hI]
          rw [hn, hE2]
          simp
      | error e =>
        obtain ⟨h1, ⟨n, hn⟩⟩ := ih { s2 with errors := s2.errors ++
          ["Failed to index collection '" ++ s.roms_folder ++ "/" ++ d.name ++ "': " ++ e] }
        refine ⟨?_, ⟨nE ++ (["Failed to index collection '" ++ s.roms_folder ++ "/" ++ d.name ++ "': " ++ e] ++ n), ?_⟩⟩
        · simpa [indexRootLoop, hI, hrf2] using h1
        · simp only [indexRootLoop, hI]
          rw [hn]
          simp only [hE2]
          simp

/-- The root loop preserves the index-validity invariant. -/
theorem indexRootLoop_valid :
    ∀ (entries : List RootEntry) (s : State),
      validIndex s.index → validIndex (indexRootLoop entries s).index := by
  intro entries
  induction entries with
  | nil => exact fun s h => by simpa [indexRootLoop] using h
  | cons entry rest ih =>
    intro s h
    cases entry with
    | errEntry e =>
      have h2 := ih { s with errors := s.errors ++ ["Failed to read directory entry: " ++ e] } h
      simpa [indexRootLoop] using h2
    | fileTypeFail name e =>
      have h2 := ih { s with errors := s.errors ++
        ["Failed to determine file type for '" ++ s.roms_folder ++ "/" ++ name ++ "': " ++ e] } h
      simpa [indexRootLoop] using h2
    | notDir name =>
      simpa [indexRootLoop] using ih s h
    | dir d =>
      have hv := index_collection_folder_valid s d h
      rcases hI : index_collection_folder s d with ⟨s2, r⟩
      rw [hI] at hv
      have hv2 : validIndex s2.index := hv
      cases r with
      | ok u =>
        cases u
        simpa [indexRootLoop, hI] using ih s2 hv2
      | error e =>
        have := ih { s2 with errors := s2.errors ++
          ["Failed to index collection '" ++ s.roms_folder ++ "/" ++ d.name ++ "': " ++ e] } hv2
        simpa [indexRootLoop, hI] using this

/-- Provenance of the roms produced by the root loop. -/
theorem indexRootLoop_roms_from :
    ∀ (entries : List RootEntry) (s : State),
      ∀ rom ∈ (indexRootLoop entries s).index.roms,
        rom ∈ s.index.roms ∨
        ∃ d, RootEntry.dir d ∈ entries ∧
          ∃ ents f stem, d.readDir = .ok ents ∧ CollEntry.okFile f ∈ ents ∧
            f.stem = some stem ∧
            rom = romOfFile (s.roms_folder ++ "/" ++ d.name ++ "/.media") stem f := by
  intro entries
  induction entries with
  | nil =>
    intro s rom hrom
    exact Or.inl (by simpa [indexRootLoop] using hrom)
  | cons entry rest ih =>
    intro s rom hrom
    cases entry with
    | errEntry e =>
      rcases ih _ rom (by simpa [indexRootLoop] using hrom) with h | ⟨d, hd, rest2⟩
      · exact Or.inl h
      · exact Or.inr ⟨d, List.mem_cons_of_mem _ hd, rest2⟩
    | fileTypeFail name e =>
      rcases ih _ rom (by simpa [indexRootLoop] using hrom) with h | ⟨d, hd, rest2⟩
      · exact Or.inl h
      · exact Or.inr ⟨d, List.mem_cons_of_mem _ hd, rest2⟩
    | notDir name =>
      rcases ih s rom (by simpa [indexRootLoop] using hrom) with h | ⟨d, hd, rest2⟩
      · exact Or.inl h
      · exact Or.inr ⟨d, List.mem_cons_of_mem _ hd, rest2⟩
    | dir d =>
      obtain ⟨hrf, hE, hR⟩ := index_collection_folder_state_spec s d
      have hfrom := index_collection_folder_roms_from s d
      rcases hI : index_collection_folder s d with ⟨s2, r⟩
      rw [hI] at hrf hfrom
      have hrf2 : s2.roms_folder = s.roms_folder := hrf
      cases r with
      | ok u =>
        cases u
        rcases ih s2 rom (by simpa [indexRootLoop, hI] using hrom) with h | ⟨d2, hd2, ents, f, stem, h1, h2, h3, h4⟩
        · rcases hfrom rom h with h | ⟨ents, f, stem, h1, h2, h3, h4⟩
          · exact Or.inl h
          · exact Or.inr ⟨d, List.mem_cons_self _ _, ents, f, stem, h1, h2, h3, h4⟩
        · exact Or.inr ⟨d2, List.mem_cons_of_mem _ hd2, ents, f, stem, h1, h2, h3,
            by rw [hrf2] at h4; exact h4⟩
      | error e =>
        rcases ih { s2 with errors := s2.errors ++
            ["Failed to index collection '" ++ s.roms_folder ++ "/" ++ d.name ++ "': " ++ e] }
          rom (by simpa [indexRootLoop, hI] using hrom) with h | ⟨d2, hd2, ents, f, stem, h1, h2, h3, h4⟩
        · rcases hfrom rom h with h | ⟨ents, f, stem, h1, h2, h3, h4⟩
          · exact Or.inl h
          · exact Or.inr ⟨d, List.mem_cons_self _ _, ents, f, stem, h1, h2, h3, h4⟩
        · exact Or.inr ⟨d2, List.mem_cons_of_mem _ hd2, ents, f, stem, h1, h2, h3,
            by rw [hrf2] at h4; exact h4⟩

/-- Case analysis of `boxartSizeOf`: the size is `0` whenever the existence
check did not succeed with `true`, and a nonzero size certifies a successful
existence check and metadata read reporting exactly that length. -/
theorem boxartSizeOf_cases (f : FileEntry) :
    (f.boxartExists ≠ .ok true → boxartSizeOf f = 0) ∧
    (boxartSizeOf f ≠ 0 → f.boxartExists = .ok true ∧ f.boxartLen = some (boxartSizeOf f)) := by
  rcases hex : f.boxartExists with e | b
  · constructor
    · intro _; simp [boxartSizeOf, hex]
    · intro hne; exact absurd (by simp [boxartSizeOf, hex]) hne
  · cases b with
    | false =>
      constructor
      · intro _; simp [boxartSizeOf, hex]
      · intro hne; exact absurd (by simp [boxartSizeOf, hex]) hne
    | true =>
      constructor
      · intro hne; exact absurd rfl hne
      · intro hne
        rcases hlen : f.boxartLen with _ | len
        · exact absurd (by simp [boxartSizeOf, hex, hlen]) hne
        · exact ⟨rfl, by simp [boxartSizeOf, hex, hlen]⟩

/-- C1: after a successful scan (`index_roms` returns `Ok`), every entry of
every collection's `rom_indices` is a valid index into `Index.roms`, and no
collection remaining in the final `Index` has an empty `rom_indices`.  (The
hypothesis `validIndex s.index` holds in particular for the empty index the
application always starts the scan from.) -/
theorem C1_scan_invariant (s : State) (root : RootDir) (s2 : State)
    (hvalid : validIndex s.index) (h : index_roms s root = .ok s2) :
    validIndex s2.index ∧ ∀ c ∈ s2.index.collections, c.rom_indices ≠ [] := by
  rcases hrd : root.readDir with e | entries
  · simp only [index_roms, hrd] at h
    cases h
  · simp only [index_roms, hrd] at h
    cases h
    have hv3 := indexRootLoop_valid entries s hvalid
    constructor
    · intro c hc i hi
      simp only [List.mem_filter] at hc
      exact hv3 c hc.1 i hi
    · intro c hc
      simp only [List.mem_filter] at hc
      simpa using hc.2

/-- C1 witness: a concrete scan of a root with one collection containing one
file satisfies the invariant. -/
theorem C1_scan_invariant_witness :
    validIndex (⟨"r", ⟨[], []⟩, []⟩ : State).index ∧
    (validIndex (⟨"r", ⟨[⟨"game", "r/C/.media/game.png", 0⟩], [⟨"C", [0]⟩]⟩, []⟩ : State).index ∧
     ∀ c ∈ (⟨"r", ⟨[⟨"game", "r/C/.media/game.png", 0⟩], [⟨"C", [0]⟩]⟩, []⟩ : State).index.collections,
       c.rom_indices ≠ []) :=
  ⟨by intro c hc; simp at hc,
   C1_scan_invariant ⟨"r", ⟨[], []⟩, []⟩
     ⟨.ok [.dir ⟨"C", .ok [.okFile ⟨some "game", "dbg", .ok false, Option.none⟩], true, .ok ()⟩]⟩
     ⟨"r", ⟨[⟨"game", "r/C/.media/game.png", 0⟩], [⟨"C", [0]⟩]⟩, []⟩
     (by intro c hc; simp at hc) (by rfl)⟩

/-- C4 counterexample: scanning a root whose single file has a boxart file
that exists (`std::fs::exists` returns `Ok(true)`) with byte length `0`
produces a rom with `boxart_size = 0` even though the file existed at scan
time, refuting "`boxart_size == 0` iff the file did not exist". -/
theorem C4_boxart_size_counterexample :
    index_roms ⟨"r", ⟨[], []⟩, []⟩
      ⟨.ok [.dir ⟨"C", .ok [.okFile ⟨some "game", "dbg", .ok true, some 0⟩], true, .ok ()⟩]⟩ =
      .ok ⟨"r", ⟨[⟨"game", "r/C/.media/game.png", 0⟩], [⟨"C", [0]⟩]⟩, []⟩ ∧
    (⟨some "game", "dbg", .ok true, some 0⟩ : FileEntry).boxartExists = .ok true ∧
    (⟨"game", "r/C/.media/game.png", 0⟩ : Rom).boxart_size = 0 :=
  ⟨by rfl, rfl, rfl⟩

/-- C4 amended: for every rom produced by a scan, a nonzero `boxart_size`
certifies that the boxart file existed at scan time (and equals its metadata
length), and a file whose existence check did not succeed with `true` yields
`boxart_size = 0`; however `boxart_size = 0` does not imply absence (an
existing empty file, or a failed metadata read, also gives `0`). -/
theorem C4_boxart_size (s : State) (root : RootDir) (s2 : State)
    (h : index_roms s root = .ok s2) :
    ∀ rom ∈ s2.index.roms, rom ∈ s.index.roms ∨
      ∃ entries d ents f stem,
        root.readDir = .ok entries ∧ RootEntry.dir d ∈ entries ∧
        d.readDir = .ok ents ∧ CollEntry.okFile f ∈ ents ∧ f.stem = some stem ∧
        rom = romOfFile (s.roms_folder ++ "/" ++ d.name ++ "/.media") stem f ∧
        (f.boxartExists ≠ .ok true → rom.boxart_size = 0) ∧
        (rom.boxart_size ≠ 0 →
          f.boxartExists = .ok true ∧ f.boxartLen = some rom.boxart_size) := by
  rcases hrd : root.readDir with e | entries
  · simp only [index_roms, hrd] at h
    cases h
  · simp only [index_roms, hrd] at h
    cases h
    intro rom hrom
    have hrom2 : rom ∈ (indexRootLoop entries s).index.roms := hrom
    rcases indexRootLoop_roms_from entries s rom hrom2 with hold | ⟨d, hd, ents, f, stem, h1, h2, h3, h4⟩
    · exact Or.inl hold
    · refine Or.inr ⟨entries, d, ents, f, stem, rfl, hd, h1, h2, h3, h4, ?_, ?_⟩
      · intro hne
        have hsz : rom.boxart_size = boxartSizeOf f := by rw [h4]; rfl
        rw [hsz]
        exact (boxartSizeOf_cases f).1 hne
      · intro hne
        have hsz : rom.boxart_size = boxartSizeOf f := by rw [h4]; rfl
        rw [hsz] at hne ⊢
        exact (boxartSizeOf_cases f).2 hne

/-- C4 witness: the amended theorem applied to the concrete scan of a root
with one collection holding one file whose boxart is absent, instantiated at
the single produced rom. -/
theorem C4_boxart_size_witness :
    (⟨"game", "r/C/.media/game.png", 0⟩ : Rom) ∈
      (⟨"r", ⟨[⟨"game", "r/C/.media/game.png", 0⟩], [⟨"C", [0]⟩]⟩, []⟩ : State).index.roms ∧
    ((⟨"game", "r/C/.media/game.png", 0⟩ : Rom) ∈ (⟨"r", ⟨[], []⟩, []⟩ : State).index.roms ∨
      ∃ entries d ents f stem,
        (⟨.ok [.dir ⟨"C", .ok [.okFile ⟨some "game", "dbg", .ok false, Option.none⟩], true,
            .ok ()⟩]⟩ : RootDir).readDir = .ok entries ∧
        RootEntry.dir d ∈ entries ∧
        d.readDir = .ok ents ∧ CollEntry.okFile f ∈ ents ∧ f.stem = some stem ∧
        (⟨"game", "r/C/.media/game.png", 0⟩ : Rom) =
          romOfFile ((⟨"r", ⟨[], []⟩, []⟩ : State).roms_folder ++ "/" ++ d.name ++ "/.media") stem f ∧
        (f.boxartExists ≠ .ok true →
          (⟨"game", "r/C/.media/game.png", 0⟩ : Rom).boxart_size = 0) ∧
        ((⟨"game", "r/C/.media/game.png", 0⟩ : Rom).boxart_size ≠ 0 →
          f.boxartExists = .ok true ∧
          f.boxartLen = some (⟨"game", "r/C/.media/game.png", 0⟩ : Rom).boxart_size)) :=
  ⟨by simp,
   C4_boxart_size ⟨"r", ⟨[], []⟩, []⟩
     ⟨.ok [.dir ⟨"C", .ok [.okFile ⟨some "game", "dbg", .ok false, Option.none⟩], true, .ok ()⟩]⟩
     ⟨"r", ⟨[⟨"game", "r/C/.media/game.png", 0⟩], [⟨"C", [0]⟩]⟩, []⟩ (by rfl)
     ⟨"game", "r/C/.media/game.png", 0⟩ (by simp)⟩

/-- C3 counterexample: in a collection whose first file entry has no
extractable stem, the failure does not skip only that entry — it aborts the
remaining entries of the collection: the second, perfectly scannable file
contributes no rom, the whole collection is dropped, and a single formatted
error is recorded. -/
theorem C3_scan_failure_counterexample :
    index_roms ⟨"r", ⟨[], []⟩, []⟩
      ⟨.ok [.dir ⟨"C",
        .ok [.okFile ⟨Option.none, "entry0", .ok false, Option.none⟩,
             .okFile ⟨some "game", "entry1", .ok false, Option.none⟩],
        true, .ok ()⟩]⟩ =
      .ok ⟨"r", ⟨[], []⟩,
        ["Failed to index collection 'r/C': Failed to extract file stem: entry0"]⟩ := by
  rfl

/-- C3 amended: only failure to list the root aborts the scan (with the
formatted root error); any other input still yields `Ok` with the prior
errors preserved as a prefix.  Inside one collection the failure handling is
finer-grained than the claim states: a file-stem extraction failure (like a
media-folder creation or file-type failure) aborts the remaining entries of
that collection — recorded as one formatted error by the root loop — while an
`Err` directory entry inside a collection is silently skipped without any
recorded error. -/
theorem C3_scan_failure_policy (s : State) (root : RootDir) :
    (∀ e, index_roms s root = .error e →
      ∃ e0, root.readDir = .error e0 ∧
        e = "Failed to read directory '" ++ s.roms_folder ++ "': " ++ e0) ∧
    (∀ entries, root.readDir = .ok entries →
      ∃ s2, index_roms s root = .ok s2 ∧ ∃ new, s2.errors = s.errors ++ new) ∧
    (∀ (d : CollectionDir) (f : FileEntry) rest (s0 : State),
      d.mediaExists = true → d.readDir = .ok (.okFile f :: rest) →
      f.stem = Option.none →
      index_collection_folder s0 d =
        (s0, .error ("Failed to extract file stem: " ++ f.debugRepr))) ∧
    (∀ (mfo : String) (mco : Except String Unit) rest (s0 : State) (c0 : Collection),
      indexCollLoop mfo mco (.errEntry :: rest) s0 c0 true =
      indexCollLoop mfo mco rest s0 c0 true) := by
  refine ⟨?_, ?_, ?_, ?_⟩
  · intro e he
    rcases hrd : root.readDir with e0 | entries
    · simp only [index_roms, hrd] at he
      cases he
      exact ⟨e0, rfl, rfl⟩
    · simp only [index_roms, hrd] at he
      cases he
  · intro entries hrd
    obtain ⟨hrf, ⟨new, hnew⟩⟩ := indexRootLoop_state_spec entries s
    rcases hres : index_roms s root with e | s2
    · simp only [index_roms, hrd] at hres
      cases hres
    · refine ⟨s2, rfl, ⟨new, ?_⟩⟩
      simp only [index_roms, hrd] at hres
      cases hres
      simpa using hnew
  · intro d f rest s0 hmedia hread hstem
    simp [index_collection_folder, hread, indexCollLoop, hmedia, hstem]
  · intro mfo mco rest s0 c0
    simp [indexCollLoop]

/-- C3 witness: the amended policy evaluated on a concrete root whose listing
fails, and on a concrete successful listing. -/
theorem C3_scan_failure_policy_witness :
    (∀ e, index_roms ⟨"r", ⟨[], []⟩, []⟩ (⟨.error "denied"⟩ : RootDir) = .error e →
      ∃ e0, (⟨.error "denied"⟩ : RootDir).readDir = .error e0 ∧
        e = "Failed to read directory '" ++ (⟨"r", ⟨[], []⟩, []⟩ : State).roms_folder ++ "': " ++ e0) ∧
    (∀ entries, (⟨.error "denied"⟩ : RootDir).readDir = .ok entries →
      ∃ s2, index_roms ⟨"r", ⟨[], []⟩, []⟩ (⟨.error "denied"⟩ : RootDir) = .ok s2 ∧
        ∃ new, s2.errors = (⟨"r", ⟨[], []⟩, []⟩ : State).errors ++ new) ∧
    (∀ (d : CollectionDir) (f : FileEntry) rest (s0 : State),
      d.mediaExists = true → d.readDir = .ok (.okFile f :: rest) →
      f.stem = Option.none →
      index_collection_folder s0 d =
        (s0, .error ("Failed to extract file stem: " ++ f.debugRepr))) ∧
    (∀ (mfo : String) (mco : Except String Unit) rest (s0 : State) (c0 : Collection),
      indexCollLoop mfo mco (.errEntry :: rest) s0 c0 true =
      indexCollLoop mfo mco rest s0 c0 true) :=
  C3_scan_failure_policy ⟨"r", ⟨[], []⟩, []⟩ ⟨.error "denied"⟩

/-- C2: a navigation event (`OpenCollectionList`, `OpenErrorList`,
`OpenRomList`) delivered while the view is `Setup`, `Loading` or `FatalError`
never panics, leaves the view entirely unchanged, and schedules the
recorded-error task. -/
theorem C2_nav_without_state (v : NextArtView) (msg : Message)
    (hv : (∃ cp er, v = .Setup cp er) ∨ (∃ st m, v = .Loading st m) ∨
      (∃ e, v = .FatalError e))
    (hm : msg = .OpenCollectionList ∨ msg = .OpenErrorList ∨
      ∃ t ris, msg = .OpenRomList t ris) :
    ∃ e, update v msg = some (v, .recordErrorMsg e) := by
  rcases hv with ⟨cp, er, rfl⟩ | ⟨st, m, rfl⟩ | ⟨e, rfl⟩ <;>
    rcases hm with rfl | rfl | ⟨t, ris, rfl⟩ <;> exact ⟨_, rfl⟩

/-- C2 witness: `OpenCollectionList` delivered in the initial `Setup` view. -/
theorem C2_nav_without_state_witness :
    ∃ e, update (.Setup Option.none Option.none) .OpenCollectionList =
      some (.Setup Option.none Option.none, .recordErrorMsg e) :=
  C2_nav_without_state (.Setup Option.none Option.none) .OpenCollectionList
    (Or.inl ⟨Option.none, Option.none, rfl⟩) (Or.inl rfl)

/-- C5 counterexample: confirming Setup with no path chosen emits
`ViewError "No path selected."`, and `update` replaces the view by
`FatalError` — the view does not stay `Setup`. -/
theorem C5_counterexample :
    update (.Setup Option.none Option.none) (setupDoneMessage Option.none) =
      some (.FatalError "No path selected.", .none) ∧
    update (.Setup Option.none Option.none) (setupDoneMessage Option.none) ≠
      some (.Setup Option.none Option.none, .none) :=
  ⟨rfl, by decide⟩

/-- C5 amended: confirming Setup with no path chosen emits the message
`ViewError "No path selected."`, and `update` on that message replaces the
current view (whatever `Setup` flavour it is) by
`FatalError "No path selected."` with no scheduled task — a fatal,
view-replacing error, not an error recorded on an unchanged `Setup`. -/
theorem C5_fatal_on_no_path (cp : Option PathBuf) (er : Option String) :
    setupDoneMessage Option.none = .ViewError "No path selected." ∧
    update (.Setup cp er) (.ViewError "No path selected.") =
      some (.FatalError "No path selected.", .none) :=
  ⟨rfl, rfl⟩

/-- C6 counterexample: the `ErrorList` view carries a Collection State, but a
`RecordError` delivered there is dropped — the errors sequence stays empty
instead of gaining the new entry. -/
theorem C6_counterexample :
    update (.ErrorList ⟨"p", ⟨[], []⟩, []⟩) (.RecordError "boom") =
      some (.ErrorList ⟨"p", ⟨[], []⟩, []⟩, .none) ∧
    update (.ErrorList ⟨"p", ⟨[], []⟩, []⟩) (.RecordError "boom") ≠
      some (.ErrorList ⟨"p", ⟨[], []⟩, ["boom"]⟩, .none) :=
  ⟨rfl, by decide⟩

/-- C6 amended: `RecordError` appends the error string and leaves the view
variant unchanged for `Loading`, `CollectionList` and `RomList`; for
`ErrorList` (which also carries a Collection State) the event is silently
dropped and the errors sequence is unchanged. -/
theorem C6_record_error (st : State) (m t : String) (si : Option Nat)
    (img : Option ImageHandle) (ris : List Nat) (e : String) :
    update (.Loading st m) (.RecordError e) =
      some (.Loading { st with errors := st.errors ++ [e] } m, .none) ∧
    update (.CollectionList st) (.RecordError e) =
      some (.CollectionList { st with errors := st.errors ++ [e] }, .none) ∧
    update (.RomList st t si img ris) (.RecordError e) =
      some (.RomList { st with errors := st.errors ++ [e] } t si img ris, .none) ∧
    update (.ErrorList st) (.RecordError e) = some (.ErrorList st, .none) :=
  ⟨rfl, rfl, rfl, rfl⟩

/-- C7 counterexample: when the file picker of `ChooseReplacementImage`
returns no path, the continuation yields `RecordError "No file selected"`,
not the silent `NoOp`. -/
theorem C7_counterexample :
    chooseReplacementContinuation 0
      (chooseReplacementBody "p" Option.none (fun _ _ => .ok 1)) =
      .RecordError "No file selected" ∧
    chooseReplacementContinuation 0
      (chooseReplacementBody "p" Option.none (fun _ _ => .ok 1)) ≠ .NoOp :=
  ⟨rfl, by decide⟩

/-- C7 amended: a cancelled folder picker (`OpenRomDirectoryPicker`) maps to
the silent `NoOp` event, but a cancelled file picker
(`ChooseReplacementImage`) maps to `RecordError "No file selected"`. -/
theorem C7_picker_cancel (ri : Nat) (path : PathBuf)
    (copy : PathBuf → PathBuf → Except String Nat) :
    pickFolderContinuation Option.none = .NoOp ∧
    chooseReplacementContinuation ri (chooseReplacementBody path Option.none copy) =
      .RecordError "No file selected" :=
  ⟨rfl, rfl⟩

/-- C8 counterexample: a reachable event sequence — select a rom with box art,
its image load completes, then select a rom with `boxart_size = 0` — ends in a
`RomList` whose `selected_image` is still the previously loaded image, not
`None`. -/
theorem C8_counterexample :
    updateSeq (.Setup Option.none Option.none)
      [.SetupDone "root",
       .CompletedIndexing ⟨"root",
         ⟨[⟨"a", "root/C/.media/a.png", 5⟩, ⟨"b", "root/C/.media/b.png", 0⟩],
          [⟨"C", [0, 1]⟩]⟩, []⟩,
       .OpenRomList "C" [0, 1],
       .SelectRom 0,
       .SetRomInfoImage 1 1 [0, 0, 0, 0],
       .SelectRom 1] =
      some (.RomList ⟨"root",
        ⟨[⟨"a", "root/C/.media/a.png", 5⟩, ⟨"b", "root/C/.media/b.png", 0⟩],
         [⟨"C", [0, 1]⟩]⟩, []⟩
        "C" (some 1) (some (.fromRgba 1 1 [0, 0, 0, 0])) [0, 1]) ∧
    (⟨"b", "root/C/.media/b.png", 0⟩ : Rom).boxart_size = 0 :=
  ⟨rfl, rfl⟩

/-- C8 amended: selecting a rom with nonzero `boxart_size` records the
selection and schedules the image-load task (whose completion sets
`selected_image`); selecting a rom with zero `boxart_size` records the
selection and schedules nothing, leaving `selected_image` as it was (which is
`None` only if no image had been loaded before). -/
theorem C8_select_rom (st : State) (t : String) (si : Option Nat)
    (img : Option ImageHandle) (ris : List Nat) (idx : Nat)
    (h : idx < st.index.roms.length) :
    ((st.index.roms.get ⟨idx, h⟩).boxart_size ≠ 0 →
      update (.RomList st t si img ris) (.SelectRom idx) =
        some (.RomList st t (some idx) img ris,
          .loadImage (st.index.roms.get ⟨idx, h⟩).boxart_path)) ∧
    ((st.index.roms.get ⟨idx, h⟩).boxart_size = 0 →
      update (.RomList st t si img ris) (.SelectRom idx) =
        some (.RomList st t (some idx) img ris, .none)) ∧
    (∀ w hgt bytes, update (.RomList st t si img ris) (.SetRomInfoImage w hgt bytes) =
      some (.RomList st t si (some (.fromRgba w hgt bytes)) ris, .none)) := by
  refine ⟨fun hne => ?_, fun heq => ?_, fun w hgt bytes => rfl⟩
  · simp only [update, dif_pos h]
    rw [if_pos hne]
  · simp only [update, dif_pos h]
    rw [if_neg (not_not.mpr heq)]

/-- C8 witness: selecting the single rom (with nonzero `boxart_size`) of a
concrete `RomList` schedules the image load for its boxart path. -/
theorem C8_select_rom_witness :
    update (.RomList ⟨"root", ⟨[⟨"a", "p", 5⟩], []⟩, []⟩ "C" Option.none Option.none [0])
        (.SelectRom 0) =
      some (.RomList ⟨"root", ⟨[⟨"a", "p", 5⟩], []⟩, []⟩ "C" (some 0) Option.none [0],
        .loadImage "p") :=
  (C8_select_rom ⟨"root", ⟨[⟨"a", "p", 5⟩], []⟩, []⟩ "C" Option.none Option.none [0] 0
    (by decide)).1 (by decide)

/-- C9: the `SelectRom` and `WroteNewImage` handlers index
`state.index.roms[rom_index]` without a bounds check: they are panic-free
exactly when the index is within bounds, and a concrete out-of-bounds index
makes `update` panic (modelled as `none`). -/
theorem C9_unchecked_rom_indexing (st : State) (t : String) (si : Option Nat)
    (img : Option ImageHandle) (ris : List Nat) (idx size : Nat)
    (h : idx < st.index.roms.length) :
    ((update (.RomList st t si img ris) (.SelectRom idx)).isSome ∧
     (update (.RomList st t si img ris) (.WroteNewImage idx size)).isSome) ∧
    (∀ j, st.index.roms.length ≤ j →
      update (.RomList st t si img ris) (.SelectRom j) = Option.none ∧
      update (.RomList st t si img ris) (.WroteNewImage j size) = Option.none) ∧
    (update (.RomList ⟨"r", ⟨[], []⟩, []⟩ "t" Option.none Option.none [])
        (.SelectRom 0) = Option.none ∧
     update (.RomList ⟨"r", ⟨[], []⟩, []⟩ "t" Option.none Option.none [])
        (.WroteNewImage 0 7) = Option.none) := by
  refine ⟨⟨?_, ?_⟩, ?_, rfl, rfl⟩
  · simp only [update, dif_pos h]
    split <;> rfl
  · simp only [update, dif_pos h]
    rfl
  · intro j hj
    have hj2 : ¬ j < st.index.roms.length := Nat.not_lt.mpr hj
    exact ⟨by simp only [update, dif_neg hj2], by simp only [update, dif_neg hj2]⟩

/-- C9 witness: the bounds precondition discharged for a one-rom state at
index 0. -/
theorem C9_unchecked_rom_indexing_witness :
    ((update (.RomList ⟨"r", ⟨[⟨"a", "p", 5⟩], []⟩, []⟩ "t" Option.none Option.none [])
        (.SelectRom 0)).isSome ∧
     (update (.RomList ⟨"r", ⟨[⟨"a", "p", 5⟩], []⟩, []⟩ "t" Option.none Option.none [])
        (.WroteNewImage 0 7)).isSome) ∧
    (∀ j, (⟨"r", ⟨[⟨"a", "p", 5⟩], []⟩, []⟩ : State).index.roms.length ≤ j →
      update (.RomList ⟨"r", ⟨[⟨"a", "p", 5⟩], []⟩, []⟩ "t" Option.none Option.none [])
        (.SelectRom j) = Option.none ∧
      update (.RomList ⟨"r", ⟨[⟨"a", "p", 5⟩], []⟩, []⟩ "t" Option.none Option.none [])
        (.WroteNewImage j 7) = Option.none) ∧
    (update (.RomList ⟨"r", ⟨[], []⟩, []⟩ "t" Option.none Option.none [])
        (.SelectRom 0) = Option.none ∧
     update (.RomList ⟨"r", ⟨[], []⟩, []⟩ "t" Option.none Option.none [])
        (.WroteNewImage 0 7) = Option.none) :=
  C9_unchecked_rom_indexing ⟨"r", ⟨[⟨"a", "p", 5⟩], []⟩, []⟩ "t" Option.none Option.none [] 0 7
    (by decide)

/-- C10: a stale `SetRomInfoImage` completion arriving while the view is not
`RomList` leaves the view (and any Collection State in it) entirely
unchanged and schedules nothing — silently dropped, no error recorded. -/
theorem C10_stale_image_event (v : NextArtView) (w hgt : Nat) (bytes : List Nat)
    (hv : isRomList v = false) :
    update v (.SetRomInfoImage w hgt bytes) = some (v, .none) := by
  cases v with
  | RomList st t si img ris => simp [isRomList] at hv
  | Setup cp er => rfl
  | Loading st m => rfl
  | CollectionList st => rfl
  | FatalError e => rfl
  | ErrorList st => rfl

/-- C10 witness: a stale image completion delivered in `CollectionList`. -/
theorem C10_stale_image_event_witness :
    update (.CollectionList ⟨"r", ⟨[], []⟩, []⟩) (.SetRomInfoImage 2 2 [1]) =
      some (.CollectionList ⟨"r", ⟨[], []⟩, []⟩, .none) :=
  C10_stale_image_event (.CollectionList ⟨"r", ⟨[], []⟩, []⟩) 2 2 [1] rfl

end NextArt
